import Mathlib

/-!
Verification of `GeoStore.cpp` (utymap): the store registry / federated query
coordinator and the ingestion dispatcher of class `GeoStore::GeoStoreImpl`.

Modelling choices (shallow embedding):
* Opaque value types (`Element`, `QuadKey`, `LodRange`, `BoundingBox`,
  `StyleProvider`, visitor identity) are modelled as `Nat`: the coordinator
  never inspects them, it only routes them.
* A path (`std::string`) is modelled as its character list.
* An `ElementStore` collaborator is external to this translation unit; the
  coordinator observes it only through the calls it makes.  Each coordinator
  method is therefore embedded as a function returning the list of store
  operations (`StoreOp`) it issues, in order, plus its result.  The only
  store behaviour the coordinator branches on is `hasData`, so the model of
  a registered store carries exactly that predicate.
* `storeMap_` is a `std::map<std::string, unique_ptr<ElementStore>>`:
  modelled as an association list kept strictly sorted by key under the
  lexicographic byte order of `std::less<std::string>`.
* The format parsers are external; a parser run is abstracted as the list of
  elements the parser/visitor offers to the intake functor together with the
  visitor's `complete()` aggregation of a bounding box from those elements.
* `CancellationToken` is poll-based; the coordinator reads it once, after the
  dispatcher run (`cancelToken.isCancelled()`), modelled as a `Bool`.
-/

/-- Opaque geospatial record handed from a parser to a store. -/
abbrev Element := Nat

/-- Opaque identifier of one spatial tile. -/
abbrev QuadKey := Nat

/-- Opaque inclusive level-of-detail range. -/
abbrev LodRange := Nat

/-- Opaque axis-aligned geographic extent. -/
abbrev BoundingBox := Nat

/-- Opaque style filter, passed through unexamined. -/
abbrev StyleProvider := Nat

/-- Identity of an `ElementVisitor` reference, passed through unexamined. -/
abbrev VisitorId := Nat

/-- Path string, modelled as its character list. -/
abbrev PathStr := List Char

/-- The closed `FormatType` enum from `formats` used by the dispatcher switch. -/
inductive FormatType
  | Shape
  | Xml
  | Pbf
  | Json
deriving DecidableEq

/-- Modelled from the spec: `utymap::utils::endsWith(fullString, ending)`
(its definition lives outside this translation unit) tests whether `ending`
is a suffix of `fullString`. -/
def endsWith (fullString : PathStr) (ending : PathStr) : Bool :=
  ending.isSuffixOf fullString

/-- `GeoStoreImpl::getFormatTypeFromPath`: checks the suffixes `pbf`, `xml`,
`json` in that order and falls back to `FormatType::Shape`. -/
def getFormatTypeFromPath (path : PathStr) : FormatType :=
  if endsWith path ['p', 'b', 'f'] then FormatType.Pbf
  else if endsWith path ['x', 'm', 'l'] then FormatType.Xml
  else if endsWith path ['j', 's', 'o', 'n'] then FormatType.Json
  else FormatType.Shape

/-- The behaviour of a registered `ElementStore` that the coordinator itself
branches on: only `hasData(quadKey)`.  Every other interaction is recorded as
an emitted `StoreOp`. -/
structure ElementStore where
  hasData : QuadKey → Bool

/-- Lexicographic comparison of character lists: the order of
`std::less<std::string>` used by `storeMap_` (byte order; code-point order
coincides for the ASCII keys considered here). -/
def charListLt : List Char → List Char → Bool
  | [], [] => false
  | [], _ :: _ => true
  | _ :: _, [] => false
  | a :: as, b :: bs => if a < b then true else if b < a then false else charListLt as bs

/-- The registry `storeMap_`: association list strictly sorted by key. -/
abbrev StoreMap := List (String × ElementStore)

/-- Keys of the registry are strictly ascending — the representation
invariant of `std::map`. -/
def SortedKeys (storeMap : StoreMap) : Prop :=
  storeMap.Pairwise (fun p q => charListLt p.1.data q.1.data = true)

/-- `std::map::emplace` on the sorted association list: inserts at the sorted
position; when the key is already present the map is left unchanged and the
new value is discarded. -/
def emplace (storeMap : StoreMap) (storeKey : String) (store : ElementStore) : StoreMap :=
  match storeMap with
  | [] => [(storeKey, store)]
  | (k, s) :: rest =>
    if charListLt storeKey.data k.data then (storeKey, store) :: (k, s) :: rest
    else if storeKey = k then (k, s) :: rest
    else (k, s) :: emplace rest storeKey store

/-- `GeoStoreImpl::registerStore`: `storeMap_.emplace(storeKey, std::move(store))`. -/
def registerStore (storeMap : StoreMap) (storeKey : String) (store : ElementStore) : StoreMap :=
  emplace storeMap storeKey store

/-- One call the coordinator issues against a registered store, identified by
its registry key.  The constructors mirror the `ElementStore` interface used
by `GeoStoreImpl`. -/
inductive StoreOp
  | storeRange (storeKey : String) (element : Element) (range : LodRange)
      (styleProvider : StyleProvider)
  | storeQuad (storeKey : String) (element : Element) (quadKey : QuadKey)
      (styleProvider : StyleProvider)
  | storeBBoxRange (storeKey : String) (element : Element) (bbox : BoundingBox)
      (range : LodRange) (styleProvider : StyleProvider)
  | eraseQuad (storeKey : String) (quadKey : QuadKey)
  | eraseBBoxRange (storeKey : String) (bbox : BoundingBox) (range : LodRange)
  | searchQuad (storeKey : String) (quadKey : QuadKey) (visitor : VisitorId)
      (cancelToken : Bool)
  | searchPredicate (storeKey : String) (notTerms : String) (andTerms : String)
      (orTerms : String) (bbox : BoundingBox) (range : LodRange) (visitor : VisitorId)
      (cancelToken : Bool)
deriving DecidableEq

/-- The registry key an operation targets. -/
def opStoreKey : StoreOp → String
  | StoreOp.storeRange k _ _ _ => k
  | StoreOp.storeQuad k _ _ _ => k
  | StoreOp.storeBBoxRange k _ _ _ _ => k
  | StoreOp.eraseQuad k _ => k
  | StoreOp.eraseBBoxRange k _ _ => k
  | StoreOp.searchQuad k _ _ _ => k
  | StoreOp.searchPredicate k _ _ _ _ _ _ _ => k

/-- Whether an operation is one of the two erase calls. -/
def isEraseOp : StoreOp → Bool
  | StoreOp.eraseQuad _ _ => true
  | StoreOp.eraseBBoxRange _ _ _ => true
  | _ => false

/-- Whether an operation is one of the three store (write) calls. -/
def isWriteOp : StoreOp → Bool
  | StoreOp.storeRange _ _ _ _ => true
  | StoreOp.storeQuad _ _ _ _ => true
  | StoreOp.storeBBoxRange _ _ _ _ _ => true
  | _ => false

/-- Abstraction of one run of an external parser + intake visitor over a
file: the elements the run offers to the intake functor, in emission order
(cancellation observed mid-stream simply truncates this list), and the
visitor's `complete()` aggregation of a bounding box from the offered
elements. -/
structure ParseRun where
  offered : List Element
  complete : List Element → BoundingBox

/-- `GeoStoreImpl::add(path, cancelToken, functor)` — the ingestion
dispatcher.  Switches on the detected format; each reachable case drives the
format's parser, which offers every decoded element to `functor`, and
returns `visitor.complete()`.  The `Pbf` case exists only when the build has
`PBF_SUPPORTED_ENABLED` (`pbfSupported`); otherwise the switch falls through
to `default: throw std::domain_error("Not supported.")`, modelled as
`Except.error`.  The operations performed by the functor (one per offered
element) are returned alongside the bounding box. -/
def addPath (pbfSupported : Bool) (path : PathStr) (run : ParseRun)
    (functor : Element → StoreOp) : Except String (BoundingBox × List StoreOp) :=
  match getFormatTypeFromPath path with
  | FormatType.Shape => Except.ok (run.complete run.offered, run.offered.map functor)
  | FormatType.Xml => Except.ok (run.complete run.offered, run.offered.map functor)
  | FormatType.Pbf =>
    if pbfSupported then Except.ok (run.complete run.offered, run.offered.map functor)
    else Except.error "Not supported."
  | FormatType.Json => Except.ok (run.complete run.offered, run.offered.map functor)

/-- `GeoStoreImpl::add(storeKey, element, range, styleProvider, cancelToken)`:
forwards directly to `elementStore->store(element, range, styleProvider)`;
the token parameter is never read. -/
def addElement (storeKey : String) (element : Element) (range : LodRange)
    (styleProvider : StyleProvider) (cancelToken : Bool) : List StoreOp :=
  [StoreOp.storeRange storeKey element range styleProvider]

/-- `GeoStoreImpl::add(storeKey, path, quadKey, styleProvider, cancelToken)`:
runs the dispatcher with a functor forwarding each element to
`elementStore->store(element, quadKey, styleProvider)`; afterwards, if
`cancelToken.isCancelled()` (the `cancelled` argument), issues
`elementStore->erase(quadKey)`.  A dispatcher throw propagates before the
cancellation check is reached. -/
def addPathQuad (pbfSupported : Bool) (storeKey : String) (path : PathStr)
    (quadKey : QuadKey) (styleProvider : StyleProvider) (run : ParseRun)
    (cancelled : Bool) : Except String (List StoreOp) :=
  match addPath pbfSupported path run
      (fun element => StoreOp.storeQuad storeKey element quadKey styleProvider) with
  | Except.error msg => Except.error msg
  | Except.ok (_, ops) =>
    Except.ok (ops ++ if cancelled then [StoreOp.eraseQuad storeKey quadKey] else [])

/-- `GeoStoreImpl::add(storeKey, path, range, styleProvider, cancelToken)`:
runs the dispatcher with a functor forwarding to
`elementStore->store(element, range, styleProvider)` and binds the returned
bounding box; afterwards, if cancelled, issues
`elementStore->erase(bbox, range)` with that returned box. -/
def addPathRange (pbfSupported : Bool) (storeKey : String) (path : PathStr)
    (range : LodRange) (styleProvider : StyleProvider) (run : ParseRun)
    (cancelled : Bool) : Except String (List StoreOp) :=
  match addPath pbfSupported path run
      (fun element => StoreOp.storeRange storeKey element range styleProvider) with
  | Except.error msg => Except.error msg
  | Except.ok (bbox, ops) =>
    Except.ok (ops ++ if cancelled then [StoreOp.eraseBBoxRange storeKey bbox range] else [])

/-- `GeoStoreImpl::add(storeKey, path, bbox, range, styleProvider,
cancelToken)`: runs the dispatcher with a functor forwarding to
`elementStore->store(element, bbox, range, styleProvider)`; the dispatcher's
returned bounding box is discarded, and on cancellation the erase is
`elementStore->erase(bbox, range)` with the caller-supplied box. -/
def addPathBBoxRange (pbfSupported : Bool) (storeKey : String) (path : PathStr)
    (bbox : BoundingBox) (range : LodRange) (styleProvider : StyleProvider)
    (run : ParseRun) (cancelled : Bool) : Except String (List StoreOp) :=
  match addPath pbfSupported path run
      (fun element => StoreOp.storeBBoxRange storeKey element bbox range styleProvider) with
  | Except.error msg => Except.error msg
  | Except.ok (_, ops) =>
    Except.ok (ops ++ if cancelled then [StoreOp.eraseBBoxRange storeKey bbox range] else [])

/-- Store operations emitted by a path-ingestion call: none when the
dispatcher threw before reaching any store call. -/
def emittedOps : Except String (List StoreOp) → List StoreOp
  | Except.error _ => []
  | Except.ok ops => ops

/-- `GeoStoreImpl::search(notTerms, andTerms, orTerms, bbox, range, visitor,
cancelToken)`: iterates `storeMap_` and calls every store's predicate search
with the same arguments, visitor and token; no branching of any kind. -/
def searchPredicateOps (storeMap : StoreMap) (notTerms : String) (andTerms : String)
    (orTerms : String) (bbox : BoundingBox) (range : LodRange) (visitor : VisitorId)
    (cancelToken : Bool) : List StoreOp :=
  storeMap.map fun p =>
    StoreOp.searchPredicate p.1 notTerms andTerms orTerms bbox range visitor cancelToken

/-- `GeoStoreImpl::search(quadKey, styleProvider, visitor, cancelToken)`:
iterates `storeMap_`; for each store, calls its tile search only if
`pair.second->hasData(quadKey)` holds (`styleProvider` is accepted but not
used by the body). -/
def searchQuadOps (storeMap : StoreMap) (quadKey : QuadKey)
    (styleProvider : StyleProvider) (visitor : VisitorId) (cancelToken : Bool) :
    List StoreOp :=
  match storeMap with
  | [] => []
  | (k, s) :: rest =>
    if s.hasData quadKey then
      StoreOp.searchQuad k quadKey visitor cancelToken ::
        searchQuadOps rest quadKey styleProvider visitor cancelToken
    else searchQuadOps rest quadKey styleProvider visitor cancelToken

/-- `GeoStoreImpl::hasData(quadKey)`: iterates `storeMap_` and returns true
at the first store whose `hasData(quadKey)` holds, false after exhausting
the map.  Alongside the result, the list of store keys actually asked, in
order, is returned to make the short-circuit observable. -/
def hasDataImpl (storeMap : StoreMap) (quadKey : QuadKey) : Bool × List String :=
  match storeMap with
  | [] => (false, [])
  | (k, s) :: rest =>
    if s.hasData quadKey then (true, [k])
    else
      let r := hasDataImpl rest quadKey
      (r.1, k :: r.2)

/-- Tile-scoped contents of every store, indexed by registry key and tile. -/
def TileState := String → QuadKey → List Element

/-- Modelled from the spec: the tile-scoped effect of a store operation on an
`ElementStore` (store implementations live outside this translation unit).
Per the spec, `store(element, quadKey, ...)` adds the element to that tile
of that store and `erase(quadKey)` erases the data held for that tile.
Operations of other scopes do not touch the tile-scoped view modelled here. -/
def applyOp (s : TileState) : StoreOp → TileState
  | StoreOp.storeQuad k _e qk _ => fun k' qk' =>
      if k' = k ∧ qk' = qk then s k' qk' ++ [_e] else s k' qk'
  | StoreOp.eraseQuad k qk => fun k' qk' =>
      if k' = k ∧ qk' = qk then [] else s k' qk'
  | _ => s

/-- Effect of a whole operation trace, first operation applied first. -/
def applyOps (s : TileState) (ops : List StoreOp) : TileState :=
  ops.foldl applyOp s

/-! Helper lemmas. -/

lemma endsWith_iff {p s : PathStr} : endsWith p s = true ↔ s <:+ p := by
  unfold endsWith
  exact List.isSuffixOf_iff_suffix

lemma suffix_eq_of_length {l₁ l₂ p : List Char} (h₁ : l₁ <:+ p) (h₂ : l₂ <:+ p)
    (hl : l₁.length = l₂.length) : l₁ = l₂ := by
  obtain ⟨a, ha⟩ := h₁
  obtain ⟨b, hb⟩ := h₂
  have hab : a ++ l₁ = b ++ l₂ := by rw [ha, hb]
  exact (List.append_inj' hab hl).2

lemma not_pbf_and_xml {p : PathStr} (hp : endsWith p ['p', 'b', 'f'] = true)
    (hx : endsWith p ['x', 'm', 'l'] = true) : False := by
  have h := suffix_eq_of_length (endsWith_iff.mp hp) (endsWith_iff.mp hx) rfl
  simp at h

lemma not_pbf_and_json {p : PathStr} (hp : endsWith p ['p', 'b', 'f'] = true)
    (hj : endsWith p ['j', 's', 'o', 'n'] = true) : False := by
  have hson : (['s', 'o', 'n'] : List Char) <:+ p :=
    List.IsSuffix.trans ⟨['j'], rfl⟩ (endsWith_iff.mp hj)
  have h := suffix_eq_of_length (endsWith_iff.mp hp) hson rfl
  simp at h

lemma not_xml_and_json {p : PathStr} (hx : endsWith p ['x', 'm', 'l'] = true)
    (hj : endsWith p ['j', 's', 'o', 'n'] = true) : False := by
  have hson : (['s', 'o', 'n'] : List Char) <:+ p :=
    List.IsSuffix.trans ⟨['j'], rfl⟩ (endsWith_iff.mp hj)
  have h := suffix_eq_of_length (endsWith_iff.mp hx) hson rfl
  simp at h

lemma addPath_ok {pbfSupported : Bool} {path : PathStr} {run : ParseRun}
    {functor : Element → StoreOp} {bbox : BoundingBox} {ops : List StoreOp}
    (h : addPath pbfSupported path run functor = Except.ok (bbox, ops)) :
    bbox = run.complete run.offered ∧ ops = run.offered.map functor := by
  unfold addPath at h
  split at h
  · exact ⟨(by injection h with h; exact (congrArg Prod.fst h).symm),
      (by injection h with h; exact (congrArg Prod.snd h).symm)⟩
  · exact ⟨(by injection h with h; exact (congrArg Prod.fst h).symm),
      (by injection h with h; exact (congrArg Prod.snd h).symm)⟩
  · split at h
    · exact ⟨(by injection h with h; exact (congrArg Prod.fst h).symm),
        (by injection h with h; exact (congrArg Prod.snd h).symm)⟩
    · exact absurd h (by simp)
  · exact ⟨(by injection h with h; exact (congrArg Prod.fst h).symm),
      (by injection h with h; exact (congrArg Prod.snd h).symm)⟩

/-- C7: format detection is a total, deterministic, pure function of the
path string: a path whose suffix is `pbf` maps to Pbf, suffix `xml` to Xml,
suffix `json` to Json, and any other path (including one with no matching
suffix at all) maps to Shape.  Stated as an exact characterisation of every
value of `getFormatTypeFromPath`. -/
theorem getFormatTypeFromPath_table (path : PathStr) :
    (getFormatTypeFromPath path = FormatType.Pbf ↔ endsWith path ['p', 'b', 'f'] = true) ∧
    (getFormatTypeFromPath path = FormatType.Xml ↔ endsWith path ['x', 'm', 'l'] = true) ∧
    (getFormatTypeFromPath path = FormatType.Json ↔ endsWith path ['j', 's', 'o', 'n'] = true) ∧
    (getFormatTypeFromPath path = FormatType.Shape ↔
      (endsWith path ['p', 'b', 'f'] = false ∧ endsWith path ['x', 'm', 'l'] = false ∧
        endsWith path ['j', 's', 'o', 'n'] = false)) := by
  cases hp : endsWith path ['p', 'b', 'f'] with
  | true =>
    have hx : endsWith path ['x', 'm', 'l'] = false := by
      cases hx' : endsWith path ['x', 'm', 'l'] with
      | true => exact (not_pbf_and_xml hp hx').elim
      | false => rfl
    have hj : endsWith path ['j', 's', 'o', 'n'] = false := by
      cases hj' : endsWith path ['j', 's', 'o', 'n'] with
      | true => exact (not_pbf_and_json hp hj').elim
      | false => rfl
    simp [getFormatTypeFromPath, hp, hx, hj]
  | false =>
    cases hx : endsWith path ['x', 'm', 'l'] with
    | true =>
      have hj : endsWith path ['j', 's', 'o', 'n'] = false := by
        cases hj' : endsWith path ['j', 's', 'o', 'n'] with
        | true => exact (not_xml_and_json hx hj').elim
        | false => rfl
      simp [getFormatTypeFromPath, hp, hx, hj]
    | false =>
      cases hj : endsWith path ['j', 's', 'o', 'n'] with
      | true => simp [getFormatTypeFromPath, hp, hx, hj]
      | false => simp [getFormatTypeFromPath, hp, hx, hj]

/-- Witness for C7: a concrete path with suffix `xml`. -/
theorem getFormatTypeFromPath_table_witness :
    endsWith "a.xml".data ['x', 'm', 'l'] = true ∧
    getFormatTypeFromPath "a.xml".data = FormatType.Xml :=
  ⟨by decide, (getFormatTypeFromPath_table "a.xml".data).2.1.mpr (by decide)⟩

/-- C10: the direct element ingestion `add(storeKey, element, range,
styleProvider, cancelToken)` never consults the cancellation token: for
every token state it forwards the element exactly once to the store's
range-scoped store-operation and never issues any erase. -/
theorem addElement_ignores_cancellation (storeKey : String) (element : Element)
    (range : LodRange) (styleProvider : StyleProvider) :
    (∀ cancelToken : Bool,
      addElement storeKey element range styleProvider cancelToken =
        [StoreOp.storeRange storeKey element range styleProvider]) ∧
    (addElement storeKey element range styleProvider true =
      addElement storeKey element range styleProvider false) ∧
    (∀ (cancelToken : Bool) (op : StoreOp),
      op ∈ addElement storeKey element range styleProvider cancelToken →
        isEraseOp op = false) := by
  refine ⟨fun _ => rfl, rfl, fun cancelToken op hop => ?_⟩
  simp only [addElement, List.mem_singleton] at hop
  subst hop
  rfl

/-- C5: for range-scoped path ingestion with no explicit bounding box, when
the token reports cancelled after the dispatcher run, the coordinator issues
one bbox+range-scoped erase using the bounding box the dispatcher
accumulated (`visitor.complete()` over the elements actually offered during
the run), paired with the same range that scoped the writes. -/
theorem addPathRange_cancelled_erase (pbfSupported : Bool) (storeKey : String)
    (path : PathStr) (range : LodRange) (styleProvider : StyleProvider)
    (run : ParseRun) (ops : List StoreOp)
    (h : addPathRange pbfSupported storeKey path range styleProvider run true =
      Except.ok ops) :
    ops = run.offered.map
        (fun element => StoreOp.storeRange storeKey element range styleProvider) ++
      [StoreOp.eraseBBoxRange storeKey (run.complete run.offered) range] ∧
    ops.countP (fun op => isEraseOp op) = 1 := by
  unfold addPathRange at h
  cases hd : addPath pbfSupported path run
      (fun element => StoreOp.storeRange storeKey element range styleProvider) with
  | error msg => rw [hd] at h; exact absurd h (by simp)
  | ok val =>
    obtain ⟨bbox, wops⟩ := val
    obtain ⟨hb, hw⟩ := addPath_ok hd
    rw [hd] at h
    simp only [if_true] at h
    injection h with h
    subst h hb hw
    refine ⟨rfl, ?_⟩
    simp [List.countP_append, List.countP_map, isEraseOp]

/-- Witness for C5: a cancelled json-path run offering two elements. -/
theorem addPathRange_cancelled_erase_witness :
    addPathRange true "roads" "d.json".data 4 9 ⟨[11, 22], fun l => l.length⟩ true =
      Except.ok [StoreOp.storeRange "roads" 11 4 9, StoreOp.storeRange "roads" 22 4 9,
        StoreOp.eraseBBoxRange "roads" 2 4] ∧
    [StoreOp.storeRange "roads" 11 4 9, StoreOp.storeRange "roads" 22 4 9,
        StoreOp.eraseBBoxRange "roads" 2 4] =
      ([11, 22] : List Element).map
          (fun element => StoreOp.storeRange "roads" element 4 9) ++
        [StoreOp.eraseBBoxRange "roads" (([11, 22] : List Element).length) 4] :=
  ⟨by rfl, (addPathRange_cancelled_erase true "roads" "d.json".data 4 9
    ⟨[11, 22], fun l => l.length⟩ _ (by rfl)).1⟩

/-- C6: for explicit-bbox path ingestion, every element is forwarded to the
store's bbox+range-scoped store-operation with the caller-supplied bbox, and
on cancellation the corrective erase uses the caller-supplied bbox and
range; the bounding box derived from the parsed elements is never used in
an erase unless it happens to equal the caller's. -/
theorem addPathBBoxRange_uses_caller_bbox (pbfSupported : Bool) (storeKey : String)
    (path : PathStr) (bbox : BoundingBox) (range : LodRange)
    (styleProvider : StyleProvider) (run : ParseRun) (ops : List StoreOp)
    (h : addPathBBoxRange pbfSupported storeKey path bbox range styleProvider run true =
      Except.ok ops) :
    ops = run.offered.map
        (fun element => StoreOp.storeBBoxRange storeKey element bbox range styleProvider) ++
      [StoreOp.eraseBBoxRange storeKey bbox range] ∧
    (∀ b : BoundingBox, b ≠ bbox → StoreOp.eraseBBoxRange storeKey b range ∉ ops) := by
  unfold addPathBBoxRange at h
  cases hd : addPath pbfSupported path run
      (fun element => StoreOp.storeBBoxRange storeKey element bbox range styleProvider) with
  | error msg => rw [hd] at h; exact absurd h (by simp)
  | ok val =>
    obtain ⟨b₀, wops⟩ := val
    obtain ⟨hb, hw⟩ := addPath_ok hd
    rw [hd] at h
    simp only [if_true] at h
    injection h with h
    subst h hb hw
    refine ⟨rfl, fun b hb hmem => ?_⟩
    simp only [List.mem_append, List.mem_map, List.mem_singleton] at hmem
    rcases hmem with ⟨e, _, he⟩ | he
    · exact absurd he (by simp)
    · injection he with h1 h2 h3
      exact hb h2

/-- Witness for C6: a cancelled run whose parsed extent (2) differs from the
caller-supplied bbox (77); the erase uses 77 and no erase with the parsed
extent occurs. -/
theorem addPathBBoxRange_uses_caller_bbox_witness :
    addPathBBoxRange true "roads" "d.json".data 77 4 9 ⟨[11, 22], fun l => l.length⟩ true =
      Except.ok [StoreOp.storeBBoxRange "roads" 11 77 4 9,
        StoreOp.storeBBoxRange "roads" 22 77 4 9,
        StoreOp.eraseBBoxRange "roads" 77 4] ∧
    StoreOp.eraseBBoxRange "roads" 2 4 ∉
      [StoreOp.storeBBoxRange "roads" 11 77 4 9,
        StoreOp.storeBBoxRange "roads" 22 77 4 9,
        StoreOp.eraseBBoxRange "roads" 77 4] :=
  ⟨by rfl, (addPathBBoxRange_uses_caller_bbox true "roads" "d.json".data 77 4 9
    ⟨[11, 22], fun l => l.length⟩ _ (by rfl)).2 2 (by decide)⟩

/-- C1: for tile-scoped path ingestion, when the token reports cancelled
after the dispatcher run, every store write of the run was tile-scoped with
the given quadKey on the given store, the coordinator issues exactly one
tile-scoped erase with that same quadKey on that same store (and no other
erase), and applying the whole trace to any initial tile state leaves the
store's data for that tile absent. -/
theorem addPathQuad_cancelled_rollback (pbfSupported : Bool) (storeKey : String)
    (path : PathStr) (quadKey : QuadKey) (styleProvider : StyleProvider)
    (run : ParseRun) (ops : List StoreOp) (s₀ : TileState)
    (h : addPathQuad pbfSupported storeKey path quadKey styleProvider run true =
      Except.ok ops) :
    (∀ op ∈ ops, isWriteOp op = true →
      ∃ element, op = StoreOp.storeQuad storeKey element quadKey styleProvider) ∧
    ops.count (StoreOp.eraseQuad storeKey quadKey) = 1 ∧
    (∀ op ∈ ops, isEraseOp op = true → op = StoreOp.eraseQuad storeKey quadKey) ∧
    applyOps s₀ ops storeKey quadKey = [] := by
  unfold addPathQuad at h
  cases hd : addPath pbfSupported path run
      (fun element => StoreOp.storeQuad storeKey element quadKey styleProvider) with
  | error msg => rw [hd] at h; exact absurd h (by simp)
  | ok val =>
    obtain ⟨bbox, wops⟩ := val
    obtain ⟨hb, hw⟩ := addPath_ok hd
    rw [hd] at h
    simp only [if_true] at h
    injection h with h
    subst h hb hw
    refine ⟨?_, ?_, ?_, ?_⟩
    · intro op hop hwr
      simp only [List.mem_append, List.mem_map, List.mem_singleton] at hop
      rcases hop with ⟨e, _, rfl⟩ | rfl
      · exact ⟨e, rfl⟩
      · exact absurd hwr (by simp [isWriteOp])
    · have h0 : (run.offered.map
          (fun element => StoreOp.storeQuad storeKey element quadKey styleProvider)).count
            (StoreOp.eraseQuad storeKey quadKey) = 0 := by
        rw [List.count_eq_zero]
        simp
      simp [List.count_append, h0]
    · intro op hop he
      simp only [List.mem_append, List.mem_map, List.mem_singleton] at hop
      rcases hop with ⟨e, _, rfl⟩ | rfl
      · exact absurd he (by simp [isEraseOp])
      · rfl
    · rw [applyOps, List.foldl_append]
      simp [applyOp]

/-- Witness for C1: a cancelled xml-path run offering two elements into tile
7 of store "roads"; the trace is the two tile writes followed by the single
tile erase, and the resulting tile data is empty even from a non-empty
initial state. -/
theorem addPathQuad_cancelled_rollback_witness :
    addPathQuad true "roads" "a.xml".data 7 3 ⟨[11, 22], fun l => l.length⟩ true =
      Except.ok [StoreOp.storeQuad "roads" 11 7 3, StoreOp.storeQuad "roads" 22 7 3,
        StoreOp.eraseQuad "roads" 7] ∧
    ([StoreOp.storeQuad "roads" 11 7 3, StoreOp.storeQuad "roads" 22 7 3,
        StoreOp.eraseQuad "roads" 7].count (StoreOp.eraseQuad "roads" 7) = 1 ∧
      applyOps (fun _ _ => [99]) [StoreOp.storeQuad "roads" 11 7 3,
        StoreOp.storeQuad "roads" 22 7 3, StoreOp.eraseQuad "roads" 7] "roads" 7 = []) :=
  ⟨by rfl,
    (addPathQuad_cancelled_rollback true "roads" "a.xml".data 7 3
      ⟨[11, 22], fun l => l.length⟩ _ (fun _ _ => [99]) (by rfl)).2.1,
    (addPathQuad_cancelled_rollback true "roads" "a.xml".data 7 3
      ⟨[11, 22], fun l => l.length⟩ _ (fun _ _ => [99]) (by rfl)).2.2.2⟩

/-- C8: when the detected format of a path has no available parser (the
binary Pbf format in a build where it is compiled out), the dispatcher and
every path-ingestion overload fail that call with the unsupported-format
error (`throw std::domain_error("Not supported.")`) propagated to the
caller, and no store-operation is invoked on any store. -/
theorem addPath_unsupported_format (path : PathStr) (run : ParseRun)
    (functor : Element → StoreOp) (storeKey : String) (quadKey : QuadKey)
    (bbox : BoundingBox) (range : LodRange) (styleProvider : StyleProvider)
    (cancelled : Bool)
    (hfmt : getFormatTypeFromPath path = FormatType.Pbf) :
    addPath false path run functor = Except.error "Not supported." ∧
    addPathQuad false storeKey path quadKey styleProvider run cancelled =
      Except.error "Not supported." ∧
    addPathRange false storeKey path range styleProvider run cancelled =
      Except.error "Not supported." ∧
    addPathBBoxRange false storeKey path bbox range styleProvider run cancelled =
      Except.error "Not supported." ∧
    emittedOps (addPathQuad false storeKey path quadKey styleProvider run cancelled) = [] ∧
    emittedOps (addPathRange false storeKey path range styleProvider run cancelled) = [] ∧
    emittedOps (addPathBBoxRange false storeKey path bbox range styleProvider run cancelled) =
      [] := by
  have h0 : ∀ f : Element → StoreOp,
      addPath false path run f = Except.error "Not supported." := by
    intro f
    unfold addPath
    rw [hfmt]
    rfl
  refine ⟨h0 functor, ?_, ?_, ?_, ?_, ?_, ?_⟩ <;>
    simp [addPathQuad, addPathRange, addPathBBoxRange, emittedOps, h0]

/-- Witness for C8: a concrete `pbf` path in a build without the Pbf parser. -/
theorem addPath_unsupported_format_witness :
    addPathQuad false "roads" "a.pbf".data 7 3 ⟨[11], fun l => l.length⟩ true =
      Except.error "Not supported." ∧
    emittedOps (addPathQuad false "roads" "a.pbf".data 7 3 ⟨[11], fun l => l.length⟩ true) =
      [] :=
  ⟨(addPath_unsupported_format "a.pbf".data ⟨[11], fun l => l.length⟩
      (fun e => StoreOp.storeQuad "roads" e 7 3) "roads" 7 0 0 3 true (by rfl)).2.1,
    (addPath_unsupported_format "a.pbf".data ⟨[11], fun l => l.length⟩
      (fun e => StoreOp.storeQuad "roads" e 7 3) "roads" 7 0 0 3 true (by rfl)).2.2.2.2.1⟩

lemma charListLt_irrefl (l : List Char) : charListLt l l = false := by
  induction l with
  | nil => rfl
  | cons a as ih =>
    have ha : ¬a < a := lt_irrefl a
    simp [charListLt, ha, ih]

lemma charListLt_asymm : ∀ (l₁ l₂ : List Char),
    charListLt l₁ l₂ = true → charListLt l₂ l₁ = false := by
  intro l₁
  induction l₁ with
  | nil =>
    intro l₂ h
    cases l₂ with
    | nil => simp [charListLt] at h
    | cons b bs => simp [charListLt]
  | cons a as ih =>
    intro l₂ h
    cases l₂ with
    | nil => simp [charListLt] at h
    | cons b bs =>
      simp only [charListLt] at h ⊢
      by_cases hab : a < b
      · have hba : ¬b < a := lt_asymm hab
        simp [hab, hba]
      · by_cases hba : b < a
        · simp [hab, hba] at h
        · simp only [hab, hba, if_false] at h ⊢
          simp [ih bs h]

lemma emplace_mem_eq : ∀ (storeMap : StoreMap) (storeKey : String) (store : ElementStore),
    SortedKeys storeMap → storeKey ∈ storeMap.map Prod.fst →
    emplace storeMap storeKey store = storeMap := by
  intro storeMap
  induction storeMap with
  | nil =>
    intro k s _ hmem
    simp at hmem
  | cons p rest ih =>
    intro k s hs hmem
    obtain ⟨k', s'⟩ := p
    rw [SortedKeys, List.pairwise_cons] at hs
    obtain ⟨hhead, htail⟩ := hs
    simp only [List.map_cons, List.mem_cons] at hmem
    by_cases hlt : charListLt k.data k'.data = true
    · exfalso
      rcases hmem with heq | hmem'
      · rw [heq] at hlt
        rw [charListLt_irrefl] at hlt
        exact Bool.false_ne_true hlt
      · obtain ⟨q, hq, hq1⟩ := List.mem_map.mp hmem'
        have hgt := hhead q hq
        rw [hq1] at hgt
        rw [charListLt_asymm _ _ hgt] at hlt
        exact Bool.false_ne_true hlt
    · by_cases heq : k = k'
      · simp [emplace, hlt, heq, charListLt_irrefl]
      · have hmem' : k ∈ rest.map Prod.fst := by
          rcases hmem with h | h
          · exact absurd h heq
          · exact h
        simp [emplace, hlt, heq, ih k s htail hmem']

/-- C2: registerStore is a no-op when the key is already present — the
original store is retained, the new one discarded, and every subsequent
hasData, tile-scoped search and predicate search observes exactly the
behaviour it had before the second registration. -/
theorem registerStore_existing_key_noop (storeMap : StoreMap) (storeKey : String)
    (newStore : ElementStore) (hs : SortedKeys storeMap)
    (hmem : storeKey ∈ storeMap.map Prod.fst) :
    registerStore storeMap storeKey newStore = storeMap ∧
    (∀ quadKey : QuadKey,
      hasDataImpl (registerStore storeMap storeKey newStore) quadKey =
        hasDataImpl storeMap quadKey) ∧
    (∀ (quadKey : QuadKey) (styleProvider : StyleProvider) (visitor : VisitorId)
        (cancelToken : Bool),
      searchQuadOps (registerStore storeMap storeKey newStore) quadKey styleProvider
          visitor cancelToken =
        searchQuadOps storeMap quadKey styleProvider visitor cancelToken) ∧
    (∀ (notTerms andTerms orTerms : String) (bbox : BoundingBox) (range : LodRange)
        (visitor : VisitorId) (cancelToken : Bool),
      searchPredicateOps (registerStore storeMap storeKey newStore) notTerms andTerms
          orTerms bbox range visitor cancelToken =
        searchPredicateOps storeMap notTerms andTerms orTerms bbox range visitor
          cancelToken) := by
  have he : registerStore storeMap storeKey newStore = storeMap :=
    emplace_mem_eq storeMap storeKey newStore hs hmem
  exact ⟨he, fun _ => by rw [he], fun _ _ _ _ => by rw [he],
    fun _ _ _ _ _ _ _ => by rw [he]⟩

/-- Witness for C2: re-registering key "roads" in a two-store registry. -/
theorem registerStore_existing_key_noop_witness :
    registerStore [("buildings", ⟨fun _ => true⟩), ("roads", ⟨fun _ => false⟩)]
        "roads" ⟨fun _ => true⟩ =
      [("buildings", ⟨fun _ => true⟩), ("roads", ⟨fun _ => false⟩)] :=
  (registerStore_existing_key_noop
    [("buildings", ⟨fun _ => true⟩), ("roads", ⟨fun _ => false⟩)] "roads"
    ⟨fun _ => true⟩
    (by constructor
        · intro q hq
          simp at hq
          rw [hq]
          decide
        · simp [SortedKeys])
    (by decide)).1

lemma hasDataImpl_fst (storeMap : StoreMap) (quadKey : QuadKey) :
    (hasDataImpl storeMap quadKey).1 = storeMap.any (fun p => p.2.hasData quadKey) := by
  induction storeMap with
  | nil => rfl
  | cons p rest ih =>
    obtain ⟨k, s⟩ := p
    by_cases h : s.hasData quadKey <;> simp [hasDataImpl, h, ih]

lemma hasDataImpl_shortcircuit : ∀ (pre : StoreMap) (post : StoreMap) (k₀ : String)
    (st₀ : ElementStore) (quadKey : QuadKey),
    st₀.hasData quadKey = true →
    (∀ p ∈ pre, p.2.hasData quadKey = false) →
    (hasDataImpl (pre ++ (k₀, st₀) :: post) quadKey).2 = pre.map Prod.fst ++ [k₀] := by
  intro pre
  induction pre with
  | nil =>
    intro post k₀ st₀ quadKey hst _
    simp [hasDataImpl, hst]
  | cons p pre ih =>
    intro post k₀ st₀ quadKey hst hpre
    obtain ⟨k, s⟩ := p
    have hfalse : s.hasData quadKey = false := hpre (k, s) (List.mem_cons_self _ _)
    have hpre' : ∀ q ∈ pre, q.2.hasData quadKey = false :=
      fun q hq => hpre q (List.mem_cons_of_mem _ hq)
    simp [hasDataImpl, hfalse, ih post k₀ st₀ quadKey hst hpre']

/-- C4: the aggregate hasData(quadKey) is true iff at least one registered
store reports data for that tile, is false on the empty registry, and
short-circuits: the stores asked, in order, are exactly those before the
first store reporting true, plus that store — stores after it are not
asked. -/
theorem hasData_any_shortcircuit (quadKey : QuadKey) (pre post : StoreMap)
    (k₀ : String) (st₀ : ElementStore)
    (hst : st₀.hasData quadKey = true)
    (hpre : ∀ p ∈ pre, p.2.hasData quadKey = false) :
    (∀ storeMap : StoreMap,
      (hasDataImpl storeMap quadKey).1 = storeMap.any (fun p => p.2.hasData quadKey)) ∧
    hasDataImpl ([] : StoreMap) quadKey = (false, []) ∧
    (hasDataImpl (pre ++ (k₀, st₀) :: post) quadKey).1 = true ∧
    (hasDataImpl (pre ++ (k₀, st₀) :: post) quadKey).2 = pre.map Prod.fst ++ [k₀] := by
  refine ⟨fun storeMap => hasDataImpl_fst storeMap quadKey, rfl, ?_,
    hasDataImpl_shortcircuit pre post k₀ st₀ quadKey hst hpre⟩
  rw [hasDataImpl_fst]
  simp only [List.any_append, List.any_cons, hst]
  simp

/-- Witness for C4: registry "a" (no data), "b" (data), "c" (data); the
aggregate is true and only "a" and "b" are asked. -/
theorem hasData_any_shortcircuit_witness :
    (hasDataImpl [("a", ⟨fun _ => false⟩), ("b", ⟨fun _ => true⟩),
        ("c", ⟨fun _ => true⟩)] 5).1 = true ∧
    (hasDataImpl [("a", ⟨fun _ => false⟩), ("b", ⟨fun _ => true⟩),
        ("c", ⟨fun _ => true⟩)] 5).2 = ["a", "b"] :=
  ⟨(hasData_any_shortcircuit 5 [("a", ⟨fun _ => false⟩)] [("c", ⟨fun _ => true⟩)]
      "b" ⟨fun _ => true⟩ (by decide) (by decide)).2.2.1,
    (hasData_any_shortcircuit 5 [("a", ⟨fun _ => false⟩)] [("c", ⟨fun _ => true⟩)]
      "b" ⟨fun _ => true⟩ (by decide) (by decide)).2.2.2⟩

lemma searchQuadOps_key_mem : ∀ (storeMap : StoreMap) (quadKey : QuadKey)
    (styleProvider : StyleProvider) (visitor : VisitorId) (cancelToken : Bool)
    (op : StoreOp), op ∈ searchQuadOps storeMap quadKey styleProvider visitor cancelToken →
    opStoreKey op ∈ storeMap.map Prod.fst := by
  intro storeMap
  induction storeMap with
  | nil => intro _ _ _ _ op hop; simp [searchQuadOps] at hop
  | cons p rest ih =>
    intro quadKey styleProvider visitor cancelToken op hop
    obtain ⟨k, s⟩ := p
    by_cases h : s.hasData quadKey
    · simp only [searchQuadOps, h, if_true, List.mem_cons] at hop
      rcases hop with rfl | hop
      · simp [opStoreKey]
      · simp only [List.map_cons, List.mem_cons]
        exact Or.inr (ih quadKey styleProvider visitor cancelToken op hop)
    · simp only [searchQuadOps, h, if_false] at hop
      simp only [List.map_cons, List.mem_cons]
      exact Or.inr (ih quadKey styleProvider visitor cancelToken op hop)

lemma opStoreKey_searchQuad (k : String) (quadKey : QuadKey) (visitor : VisitorId)
    (cancelToken : Bool) :
    opStoreKey (StoreOp.searchQuad k quadKey visitor cancelToken) = k := rfl

lemma searchQuadOps_countP_zero (storeMap : StoreMap) (quadKey : QuadKey)
    (styleProvider : StyleProvider) (visitor : VisitorId) (cancelToken : Bool)
    (k : String) (hk : k ∉ storeMap.map Prod.fst) :
    (searchQuadOps storeMap quadKey styleProvider visitor cancelToken).countP
      (fun op => opStoreKey op == k) = 0 := by
  rw [List.countP_eq_zero]
  intro op hop
  simp only [beq_iff_eq]
  intro hkeq
  exact hk (hkeq ▸ searchQuadOps_key_mem storeMap quadKey styleProvider visitor
    cancelToken op hop)

lemma searchQuadOps_countP : ∀ (storeMap : StoreMap) (quadKey : QuadKey)
    (styleProvider : StyleProvider) (visitor : VisitorId) (cancelToken : Bool)
    (k : String) (st : ElementStore),
    (storeMap.map Prod.fst).Nodup → (k, st) ∈ storeMap →
    (searchQuadOps storeMap quadKey styleProvider visitor cancelToken).countP
      (fun op => opStoreKey op == k) = if st.hasData quadKey then 1 else 0 := by
  intro storeMap
  induction storeMap with
  | nil => intro _ _ _ _ _ _ _ hmem; simp at hmem
  | cons p rest ih =>
    intro quadKey styleProvider visitor cancelToken k st hnd hmem
    obtain ⟨k', st'⟩ := p
    simp only [List.map_cons, List.nodup_cons] at hnd
    obtain ⟨hknin, hndrest⟩ := hnd
    rcases List.mem_cons.mp hmem with heq | hmemrest
    · injection heq with h1 h2
      subst h1
      subst h2
      by_cases h : st.hasData quadKey
      · simp only [searchQuadOps, h, if_true, List.countP_cons, opStoreKey_searchQuad]
        rw [searchQuadOps_countP_zero rest quadKey styleProvider visitor cancelToken k hknin]
        simp [h]
      · rw [show searchQuadOps ((k, st) :: rest) quadKey styleProvider visitor cancelToken =
            searchQuadOps rest quadKey styleProvider visitor cancelToken from by
          simp [searchQuadOps, h]]
        rw [searchQuadOps_countP_zero rest quadKey styleProvider visitor cancelToken k hknin]
        simp [h]
    · have hkmem : k ∈ rest.map Prod.fst := List.mem_map.mpr ⟨(k, st), hmemrest, rfl⟩
      have hne : (k' == k) = false := by
        simp only [beq_eq_false_iff_ne, ne_eq]
        intro hkk
        exact hknin (hkk ▸ hkmem)
      by_cases h : st'.hasData quadKey
      · simp only [searchQuadOps, h, if_true, List.countP_cons, opStoreKey_searchQuad, hne]
        simp [ih quadKey styleProvider visitor cancelToken k st hndrest hmemrest]
      · simp only [searchQuadOps, h, if_false]
        exact ih quadKey styleProvider visitor cancelToken k st hndrest hmemrest

lemma searchQuadOps_mem : ∀ (storeMap : StoreMap) (quadKey : QuadKey)
    (styleProvider : StyleProvider) (visitor : VisitorId) (cancelToken : Bool)
    (k : String) (st : ElementStore),
    (k, st) ∈ storeMap → st.hasData quadKey = true →
    StoreOp.searchQuad k quadKey visitor cancelToken ∈
      searchQuadOps storeMap quadKey styleProvider visitor cancelToken := by
  intro storeMap
  induction storeMap with
  | nil => intro _ _ _ _ _ _ hmem _; simp at hmem
  | cons p rest ih =>
    intro quadKey styleProvider visitor cancelToken k st hmem hdata
    obtain ⟨k', st'⟩ := p
    rcases List.mem_cons.mp hmem with heq | hmemrest
    · injection heq with h1 h2
      subst h1
      subst h2
      simp [searchQuadOps, hdata]
    · by_cases h : st'.hasData quadKey
      · simp only [searchQuadOps, h, if_true]
        exact List.mem_cons_of_mem _
          (ih quadKey styleProvider visitor cancelToken k st hmemrest hdata)
      · simp only [searchQuadOps, h, if_false]
        exact ih quadKey styleProvider visitor cancelToken k st hmemrest hdata

/-- C3: in the tile-scoped federated search, a registered store receives its
tile search call exactly once if its hasData(quadKey) is true, receives zero
search calls if hasData(quadKey) is false, and the call issued is the
tile-scoped search with the same quadKey, visitor and token. -/
theorem searchQuad_visits_iff_hasData (storeMap : StoreMap) (quadKey : QuadKey)
    (styleProvider : StyleProvider) (visitor : VisitorId) (cancelToken : Bool)
    (k : String) (st : ElementStore)
    (hnd : (storeMap.map Prod.fst).Nodup) (hmem : (k, st) ∈ storeMap) :
    ((searchQuadOps storeMap quadKey styleProvider visitor cancelToken).countP
      (fun op => opStoreKey op == k) = if st.hasData quadKey then 1 else 0) ∧
    (st.hasData quadKey = false →
      ∀ op ∈ searchQuadOps storeMap quadKey styleProvider visitor cancelToken,
        opStoreKey op ≠ k) ∧
    (st.hasData quadKey = true →
      StoreOp.searchQuad k quadKey visitor cancelToken ∈
        searchQuadOps storeMap quadKey styleProvider visitor cancelToken) := by
  refine ⟨searchQuadOps_countP storeMap quadKey styleProvider visitor cancelToken k st
    hnd hmem, ?_,
    fun h => searchQuadOps_mem storeMap quadKey styleProvider visitor cancelToken k st
      hmem h⟩
  intro hfalse op hop
  have h0 := searchQuadOps_countP storeMap quadKey styleProvider visitor cancelToken k st
    hnd hmem
  rw [hfalse] at h0
  simp only [Bool.false_eq_true, if_false] at h0
  have hne := List.countP_eq_zero.mp h0 op hop
  simpa using hne

/-- Witness for C3: registry "a" (no data for tile 5), "b" (data): "a"
receives zero search calls, "b" is searched. -/
theorem searchQuad_visits_iff_hasData_witness :
    ((searchQuadOps [("a", ⟨fun _ => false⟩), ("b", ⟨fun _ => true⟩)] 5 0 0 false).countP
      (fun op => opStoreKey op == "a") = 0) ∧
    StoreOp.searchQuad "b" 5 0 false ∈
      searchQuadOps [("a", ⟨fun _ => false⟩), ("b", ⟨fun _ => true⟩)] 5 0 0 false :=
  ⟨by
      have h := (searchQuad_visits_iff_hasData
        [("a", ⟨fun _ => false⟩), ("b", ⟨fun _ => true⟩)] 5 0 0 false "a"
        ⟨fun _ => false⟩ (by decide) (List.mem_cons_self _ _)).1
      simpa using h,
    (searchQuad_visits_iff_hasData
      [("a", ⟨fun _ => false⟩), ("b", ⟨fun _ => true⟩)] 5 0 0 false "b"
      ⟨fun _ => true⟩ (by decide)
      (List.mem_cons_of_mem _ (List.mem_cons_self _ _))).2.2 rfl⟩

/-- Store stub used by concrete registries below. -/
def exampleStore : ElementStore := ⟨fun _ => false⟩

/-- Registration sequence whose order differs from key order: "b" first,
then "a". -/
def registrationSeq : List (String × ElementStore) :=
  [("b", exampleStore), ("a", exampleStore)]

/-- Registry obtained by registering the sequence in order. -/
def builtRegistry : StoreMap :=
  registrationSeq.foldl (fun m p => registerStore m p.1 p.2) []

/-- C9 counterexample: the predicate-scoped federated search does not visit
stores in registration order.  Registering "b" then "a" yields a registry
whose iteration (hence visit) order is "a" before "b", so the trace differs
from the registration-order trace. -/
theorem searchPredicate_registration_order_counterexample :
    searchPredicateOps builtRegistry "n" "a" "o" 1 2 3 false ≠
      registrationSeq.map
        (fun p => StoreOp.searchPredicate p.1 "n" "a" "o" 1 2 3 false) := by
  decide

/-- C9 (amended): the predicate-scoped federated search invokes the
predicate search of every registered store exactly once, each with the same
five arguments and the same visitor and token, in ascending store-key order
(the key-sorted iteration order of the registry map) — not in registration
order — with no short-circuiting and no cancellation check performed by the
coordinator itself (the trace shape and length are independent of the token,
which is passed through to every store). -/
theorem searchPredicate_visits_all_key_sorted (storeMap : StoreMap)
    (notTerms andTerms orTerms : String) (bbox : BoundingBox) (range : LodRange)
    (visitor : VisitorId) (cancelToken : Bool) (hs : SortedKeys storeMap) :
    searchPredicateOps storeMap notTerms andTerms orTerms bbox range visitor cancelToken =
      storeMap.map (fun p => StoreOp.searchPredicate p.1 notTerms andTerms orTerms bbox
        range visitor cancelToken) ∧
    (∀ (k : String) (st : ElementStore), (k, st) ∈ storeMap →
      (searchPredicateOps storeMap notTerms andTerms orTerms bbox range visitor
        cancelToken).countP (fun op => opStoreKey op == k) = 1) ∧
    ((searchPredicateOps storeMap notTerms andTerms orTerms bbox range visitor
        cancelToken).map opStoreKey).Pairwise
      (fun x y => charListLt x.data y.data = true) ∧
    (∀ cancelToken' : Bool,
      (searchPredicateOps storeMap notTerms andTerms orTerms bbox range visitor
        cancelToken').length = storeMap.length) := by
  have hkeys : (searchPredicateOps storeMap notTerms andTerms orTerms bbox range visitor
      cancelToken).map opStoreKey = storeMap.map Prod.fst := by
    simp only [searchPredicateOps, List.map_map]
    rfl
  have hs' : storeMap.Pairwise (fun p q => charListLt p.1.data q.1.data = true) := hs
  refine ⟨rfl, ?_, ?_, fun _ => by simp [searchPredicateOps]⟩
  · intro k st hmem
    have hnd : (storeMap.map Prod.fst).Nodup := by
      have hne : storeMap.Pairwise (fun p q => p.1 ≠ q.1) := by
        refine hs'.imp ?_
        intro p q hpq heq
        rw [heq, charListLt_irrefl] at hpq
        exact Bool.false_ne_true hpq
      exact List.Pairwise.map Prod.fst (fun a b h => h) hne
    have hkmem : k ∈ storeMap.map Prod.fst := List.mem_map.mpr ⟨(k, st), hmem, rfl⟩
    have hc : (storeMap.map Prod.fst).count k = 1 := List.count_eq_one_of_mem hnd hkmem
    calc (searchPredicateOps storeMap notTerms andTerms orTerms bbox range visitor
            cancelToken).countP (fun op => opStoreKey op == k)
        = ((searchPredicateOps storeMap notTerms andTerms orTerms bbox range visitor
            cancelToken).map opStoreKey).countP (fun x => x == k) := by
          rw [List.countP_map]
          rfl
      _ = (storeMap.map Prod.fst).countP (fun x => x == k) := by rw [hkeys]
      _ = (storeMap.map Prod.fst).count k := (List.count_eq_countP _ _).symm
      _ = 1 := hc
  · rw [hkeys]
    exact List.Pairwise.map Prod.fst (fun a b h => h) hs'

/-- Witness for C9 (amended): a concrete two-store registry. -/
theorem searchPredicate_visits_all_key_sorted_witness :
    searchPredicateOps [("a", exampleStore), ("b", exampleStore)] "n" "a" "o" 1 2 3 false =
      [StoreOp.searchPredicate "a" "n" "a" "o" 1 2 3 false,
        StoreOp.searchPredicate "b" "n" "a" "o" 1 2 3 false] ∧
    ([StoreOp.searchPredicate "a" "n" "a" "o" 1 2 3 false,
        StoreOp.searchPredicate "b" "n" "a" "o" 1 2 3 false].countP
      (fun op => opStoreKey op == "b") = 1) :=
  ⟨(searchPredicate_visits_all_key_sorted [("a", exampleStore), ("b", exampleStore)]
      "n" "a" "o" 1 2 3 false
      (by constructor
          · intro q hq
            simp at hq
            rw [hq]
            decide
          · simp [SortedKeys])).1,
    (searchPredicate_visits_all_key_sorted [("a", exampleStore), ("b", exampleStore)]
      "n" "a" "o" 1 2 3 false
      (by constructor
          · intro q hq
            simp at hq
            rw [hq]
            decide
          · simp [SortedKeys])).2.1 "b" exampleStore
      (List.mem_cons_of_mem _ (List.mem_cons_self _ _))⟩
